import Mathlib

/-!
Shallow embedding of the script execution subsystem of sylver-cli:
  - `crates/sylver-core/src/script/mod.rs` (value model, error taxonomy,
    narrowing conversions, derived equality/hash),
  - `crates/sylver-script/src/python.rs` (Python backend: compiler pipeline
    and bidirectional marshalling).
Definitions are translated from the Rust source; theorems check the
specification's sentences against them.
-/

namespace Sylver

/-! ## Core value model (`sylver-core/src/script/mod.rs`) -/

/-- Models `semantic::names::ScopeId` (an opaque identifier). Its internals
are irrelevant to the script subsystem; a natural number stands for it. -/
structure ScopeId where
  id : Nat
  deriving Repr, DecidableEq

/-- Models `semantic::names::SGraph` (the scope graph reference). Its internals
never participate in equality or hashing of `ScriptValue`; a token stands for
the reference identity. -/
structure SGraph where
  token : Nat
  deriving Repr, DecidableEq

/-- Models `ScriptEvalCtx`: a struct holding a raw pointer
(`*mut EvalCtx<'static, RawTreeInfoBuilder<'static>>`). The pointer value is
modelled as a natural number (an address). -/
structure ScriptEvalCtx where
  ctxPtr : Nat
  deriving Repr, DecidableEq

/-- Models `ScriptValue` from `sylver-core/src/script/mod.rs`:
`Bool(bool) | Integer(i64) | Str(String) | Dict(BTreeMap<String, ScriptValue>)
| List(Vec<ScriptValue>) | Scope(ScopeId, SGraph, RefCell<ScriptEvalCtx>)`.
`BTreeMap` is modelled as its iteration sequence: a list of key/value pairs,
strictly ascending in key. `i64` is modelled as `Int` (the narrowing and
equality claims do not involve overflow). The `RefCell` wrapper adds no data
relevant to equality or hashing, so the `Scope` variant holds the
`ScriptEvalCtx` directly. -/
inductive ScriptValue where
  | Bool (b : Bool)
  | Integer (i : Int)
  | Str (s : String)
  | Dict (entries : List (String × ScriptValue))
  | List (items : List ScriptValue)
  | Scope (sid : ScopeId) (graph : SGraph) (ctx : ScriptEvalCtx)
  deriving Repr

/-- Models `ScriptError` from `sylver-core/src/script/mod.rs`. -/
inductive ScriptError where
  | RuntimeError (detail : String)
  | UnsupportedType (detail : String)
  | InvalidType (expected : String) (actual : ScriptValue)
  | Compilation (file : String) (detail : String)
  | InvalidAspectDeclaration
  | InvalidMessageType (detail : String)
  deriving Repr

/-! ### Narrowing conversions (`TryInto` impls, `mod.rs` lines 72-125) -/

/-- `impl TryInto<bool> for ScriptValue`. -/
def tryIntoBool : ScriptValue → Except ScriptError Bool
  | .Bool boolValue => .ok boolValue
  | v => .error (.InvalidType "bool" v)

/-- `impl TryInto<i64> for ScriptValue`. -/
def tryIntoInteger : ScriptValue → Except ScriptError Int
  | .Integer intValue => .ok intValue
  | v => .error (.InvalidType "integer" v)

/-- `impl TryInto<String> for ScriptValue`. -/
def tryIntoString : ScriptValue → Except ScriptError String
  | .Str strValue => .ok strValue
  | v => .error (.InvalidType "string" v)

/-- `impl TryInto<BTreeMap<String, ScriptValue>> for ScriptValue`. -/
def tryIntoDict : ScriptValue → Except ScriptError (List (String × ScriptValue))
  | .Dict map => .ok map
  | v => .error (.InvalidType "dict" v)

/-- `impl TryInto<Vec<ScriptValue>> for ScriptValue`. -/
def tryIntoList : ScriptValue → Except ScriptError (List ScriptValue)
  | .List list => .ok list
  | v => .error (.InvalidType "list" v)

/-! ### Derived equality and hash (`#[derivative(Eq, PartialEq, Hash)]`)

`derivative` generates structural comparisons over all fields except those
marked `#[derivative(PartialEq = "ignore", Hash = "ignore")]`: on the `Scope`
variant the `SGraph` and `RefCell<ScriptEvalCtx>` fields are ignored, so only
the `ScopeId` participates. -/

mutual

/-- The `PartialEq` implementation `derivative` generates for `ScriptValue`. -/
def beqValue : ScriptValue → ScriptValue → Bool
  | .Bool a, .Bool b => a == b
  | .Integer a, .Integer b => a == b
  | .Str a, .Str b => a == b
  | .Dict d, .Dict e => beqDict d e
  | .List a, .List b => beqList a b
  | .Scope i _ _, .Scope j _ _ => i.id == j.id
  | _, _ => false

/-- Elementwise comparison of `BTreeMap<String, ScriptValue>` iteration
sequences (`BTreeMap`'s `PartialEq` compares the sorted pair sequences). -/
def beqDict : List (String × ScriptValue) → List (String × ScriptValue) → Bool
  | [], [] => true
  | (k, v) :: restL, (k2, v2) :: restR =>
    k == k2 && beqValue v v2 && beqDict restL restR
  | _, _ => false

/-- Elementwise comparison of `Vec<ScriptValue>` (`Vec`'s `PartialEq`). -/
def beqList : List ScriptValue → List ScriptValue → Bool
  | [], [] => true
  | v :: restL, v2 :: restR => beqValue v v2 && beqList restL restR
  | _, _ => false

end

/-- Models one `Hasher::write` step: fold the next field hash into the state. -/
def hashCombine (state fieldHash : Nat) : Nat :=
  state * 1000003 + fieldHash

/-- Injective encoding of an `i64` into the hasher input. -/
def hashInt (i : Int) : Nat :=
  if i < 0 then 2 * i.natAbs + 1 else 2 * i.natAbs

mutual

/-- The `Hash` implementation `derivative` generates for `ScriptValue`: hash
the variant discriminant, then every non-ignored field. On `Scope` the graph
and context fields carry `Hash = "ignore"`, so only the identifier is fed to
the hasher. -/
def hashValue : ScriptValue → Nat
  | .Bool b => hashCombine 0 (if b then 1 else 0)
  | .Integer i => hashCombine 1 (hashInt i)
  | .Str s => hashCombine 2 s.hash.toNat
  | .Dict entries => hashCombine 3 (hashDict entries)
  | .List items => hashCombine 4 (hashList items)
  | .Scope sid _ _ => hashCombine 5 sid.id

/-- Hashing of the `BTreeMap` field: each key/value pair in order. -/
def hashDict : List (String × ScriptValue) → Nat
  | [] => 7
  | (k, v) :: rest =>
    hashCombine (hashCombine k.hash.toNat (hashValue v)) (hashDict rest)

/-- Hashing of the `Vec` field: each element in order. -/
def hashList : List ScriptValue → Nat
  | [] => 11
  | v :: rest => hashCombine (hashValue v) (hashList rest)

end

mutual

/-- `true` when a value contains no `Scope` variant anywhere (the fragment on
which no field is equality/hash-exempt). -/
def scopeFree : ScriptValue → Bool
  | .Bool _ => true
  | .Integer _ => true
  | .Str _ => true
  | .Dict entries => scopeFreeDict entries
  | .List items => scopeFreeList items
  | .Scope _ _ _ => false

def scopeFreeDict : List (String × ScriptValue) → Bool
  | [] => true
  | (_, v) :: rest => scopeFree v && scopeFreeDict rest

def scopeFreeList : List ScriptValue → Bool
  | [] => true
  | v :: rest => scopeFree v && scopeFreeList rest

end

/-! ## Python backend (`crates/sylver-script/src/python.rs`)

The `sylver-script` crate has its own `ScriptValue` and uses the same
`ScriptError` taxonomy (its crate root is not among the shown files; the
variant set below is forced by the exhaustive `match` in
`impl ToPyObject for ScriptValue`, which has exactly the arms `Integer`,
`Str` and `Dict`, and by the construction sites in `TryInto`). -/

namespace Python

/-- `sylver-script`'s `ScriptValue`:
`Integer(i64) | Str(String) | Dict(BTreeMap<String, ScriptValue>)`.
`i64` is modelled as `Int` together with the range side of `wf`; `BTreeMap`
is modelled as its iteration sequence (strictly ascending keys, the other
side of `wf`). -/
inductive ScriptValue where
  | Integer (i : Int)
  | Str (s : String)
  | Dict (entries : List (String × ScriptValue))
  deriving Repr

/-- Smallest `i64` value. -/
def i64Min : Int := -(2 ^ 63)

/-- Largest `i64` value. -/
def i64Max : Int := 2 ^ 63 - 1

/-- A Python object as far as the marshalling layer can observe it:
an `int` payload (arbitrary-precision), a `str` payload, a `dict`
(its entries in insertion order, keys being arbitrary objects), or an object
of any other class, of which only the class name is relevant. -/
inductive PyObj where
  | int (bigint : Int)
  | str (s : String)
  | dict (entries : List (PyObj × PyObj))
  | other (cls : String)
  deriving Repr

/-- `PyObjectRef::class()` as rendered into the error messages. -/
def PyObj.className : PyObj → String
  | .int _ => "int"
  | .str _ => "str"
  | .dict _ => "dict"
  | .other cls => cls

mutual

/-- `impl ToPyObject for ScriptValue` (python.rs lines 139-154):
`Integer` and `Str` map to the native payloads; `Dict` builds a fresh
`PyDict` by a `get_or_insert` per entry, iterating the `BTreeMap` in key
order. The `BTreeMap`'s keys are pairwise distinct, so every `get_or_insert`
takes the insert path; the loop is therefore an in-order map over the
entries. -/
def toPyObject : ScriptValue → PyObj
  | .Integer i => .int i
  | .Str s => .str s
  | .Dict entries => .dict (dictEntriesToPy entries)

/-- The `for (k, v) in d { dict.get_or_insert(...) }` loop of `ToPyObject`. -/
def dictEntriesToPy : List (String × ScriptValue) → List (PyObj × PyObj)
  | [] => []
  | (k, v) :: rest => (.str k, toPyObject v) :: dictEntriesToPy rest

end

/-- `BTreeMap::insert`: ordered insertion, replacing the value when the key
is already present. -/
def btreeInsert (k : String) (v : ScriptValue) :
    List (String × ScriptValue) → List (String × ScriptValue)
  | [] => [(k, v)]
  | (k2, v2) :: rest =>
    if k < k2 then (k, v) :: (k2, v2) :: rest
    else if k = k2 then (k, v) :: rest
    else (k2, v2) :: btreeInsert k v rest

mutual

/-- `impl TryInto<ScriptValue> for PyObjectRef` (python.rs lines 156-175)
together with `pyint_to_value` and `pystr_to_value`: an `int` payload maps
through `i64::try_from` (failing with `UnsupportedType("big_int")` out of
range), a `str` payload maps to `Str`, a `dict` maps through
`pydict_to_value`, and any other class is
`UnsupportedType("Unsupported type: <class>")`. -/
def tryIntoScriptValue : PyObj → Except ScriptError ScriptValue
  | .int bigint =>
    if i64Min ≤ bigint ∧ bigint ≤ i64Max then .ok (.Integer bigint)
    else .error (.UnsupportedType "big_int")
  | .str s => .ok (.Str s)
  | .dict entries =>
    match pydictToValue entries [] with
    | .ok map => .ok (.Dict map)
    | .error e => .error e
  | .other cls => .error (.UnsupportedType ("Unsupported type: " ++ cls))

/-- The entry loop of `pydict_to_value` (python.rs lines 188-202): for each
entry in dict order, the key must carry a `str` payload (else
`UnsupportedType("DictKey(<class>)")`), then the value is converted (its
error propagating), and the pair is inserted into the accumulated
`BTreeMap`. -/
def pydictToValue :
    List (PyObj × PyObj) → List (String × ScriptValue) →
    Except ScriptError (List (String × ScriptValue))
  | [], map => .ok map
  | (keyValue, value) :: rest, map =>
    match keyValue with
    | .str key =>
      match tryIntoScriptValue value with
      | .ok converted => pydictToValue rest (btreeInsert key converted map)
      | .error e => .error e
    | _ => .error (.UnsupportedType ("DictKey(" ++ keyValue.className ++ ")"))

end

/-- Strictly ascending key sequence: the shape of a `BTreeMap` iteration. -/
def keysSorted : List (String × ScriptValue) → Bool
  | [] => true
  | [_] => true
  | (k, _) :: (k2, v2) :: rest =>
    decide (k < k2) && keysSorted ((k2, v2) :: rest)

mutual

/-- The Rust-side representation invariant of `ScriptValue`: every `Integer`
holds an `i64`, every `Dict` is a `BTreeMap` iteration sequence (strictly
ascending keys) of invariant-satisfying values. -/
def wf : ScriptValue → Bool
  | .Integer i => decide (i64Min ≤ i) && decide (i ≤ i64Max)
  | .Str _ => true
  | .Dict entries => keysSorted entries && wfEntries entries

def wfEntries : List (String × ScriptValue) → Bool
  | [] => true
  | (_, v) :: rest => wf v && wfEntries rest

end

mutual

/-- Embeds `sylver-script`'s three-variant `ScriptValue` into the core
six-variant `ScriptValue` of `sylver-core/src/script/mod.rs`. -/
def toCore : ScriptValue → Sylver.ScriptValue
  | .Integer i => .Integer i
  | .Str s => .Str s
  | .Dict entries => .Dict (toCoreEntries entries)

def toCoreEntries : List (String × ScriptValue) → List (String × Sylver.ScriptValue)
  | [] => []
  | (k, v) :: rest => (k, toCore v) :: toCoreEntries rest

end

/-- An entry of a native dict that marshals without error: its key carries a
`str` payload and its value converts. -/
def entryOk (e : PyObj × PyObj) : Prop :=
  ∃ s converted, e.1 = .str s ∧ tryIntoScriptValue e.2 = .ok converted

/-! ### Compiler pipeline (`PythonScriptCompiler`) -/

/-- `rustpython_parser::ast::Location` (row/column). -/
structure Location where
  row : Nat
  column : Nat
  deriving Repr, DecidableEq

/-- `rustpython_parser::ast::Located<T>`: a node with a start location and an
optional end location. -/
structure Located (α : Type) where
  location : Location
  end_location : Option Location
  node : α
  deriving Repr, DecidableEq

/-- `ast::ExprContext` (only `Load` is built by this code). -/
inductive ExprContext where
  | Load
  | Store
  | Del
  deriving Repr, DecidableEq

/-- The expression kinds this pipeline inspects or builds: a bare `Name`
reference; every other expression kind is opaque. -/
inductive ExprKind where
  | Name (id : String) (ctx : ExprContext)
  | OtherExpr (tag : Nat)
  deriving Repr, DecidableEq

/-- The statement kinds this pipeline inspects or builds: a top-level
`FunctionDef` (of which only the name is inspected; the remaining fields are
opaque), an expression statement, and every other statement kind. -/
inductive StmtKind where
  | FunctionDef (name : String) (rest : Nat)
  | Expr (value : Located ExprKind)
  | OtherStmt (tag : Nat)
  deriving Repr, DecidableEq

/-- `ast::Mod`: the parser in `Mode::Interactive` produces
`Mod::Interactive { body }`; the other `Mod` shapes are opaque. -/
inductive Mod where
  | Interactive (body : List (Located StmtKind))
  | OtherMod (tag : Nat)
  deriving Repr, DecidableEq

/-- `PythonScriptCompiler::build_name_stmt` (python.rs lines 95-110):
an expression statement whose sole content is a `Load` reference to `name`,
with both start and end set to `location`. -/
def build_name_stmt (location : Location) (name : String) : Located StmtKind :=
  { location := location
    end_location := some location
    node := .Expr
      { location := location
        end_location := some location
        node := .Name name .Load } }

/-- `PythonScriptCompiler::append_func_ref` (python.rs lines 65-93),
returning the mutated AST: requires an `Interactive` module; errors with
`Compilation(path, "Function <name> not found")` when no top-level
`FunctionDef` in the body is named `fn_name`; errors with
`Compilation(path, "Empty script")` when the body has no last statement;
otherwise appends `build_name_stmt` at the last statement's end location
(falling back to its start location when the end location is absent). -/
def append_func_ref (path fn_name : String) : Mod → Except ScriptError Mod
  | .Interactive body =>
    if ¬ (body.any fun stmt =>
        match stmt.node with
        | .FunctionDef name _ => name == fn_name
        | _ => false) then
      .error (.Compilation path ("Function " ++ fn_name ++ " not found"))
    else
      match body.getLast? with
      | none => .error (.Compilation path "Empty script")
      | some last_statement =>
        let end_pos := last_statement.end_location.getD last_statement.location
        .ok (.Interactive (body ++ [build_name_stmt end_pos fn_name]))
  | .OtherMod _ => .error (.Compilation path "Not a module")

/-- `PythonScriptCompiler::compile_function` (python.rs lines 27-39):
parse, `append_func_ref`, codegen (`compile_ast`), then load
(`run_code_obj`), each stage short-circuiting on error. Parsing, codegen and
loading call into the `rustpython` library; they enter the model as the
already-computed parse result and as oracle functions. -/
def compile_function {CodeObj Invokable : Type}
    (compile_ast : Mod → Except ScriptError CodeObj)
    (run_code_obj : CodeObj → Except ScriptError Invokable)
    (parse_module : Except ScriptError Mod)
    (path fn_name : String) : Except ScriptError Invokable := do
  let ast ← parse_module
  let ast2 ← append_func_ref path fn_name ast
  let code ← compile_ast ast2
  run_code_obj code

/-! ### `PythonScriptEngine::eval` (python.rs lines 125-136) -/

/-- What the caller of `eval` can observe: either the call returns a value
(`Result<ScriptValue, ScriptError>`), or the calling thread panics. -/
inductive EvalOutcome where
  | returns (r : Except ScriptError ScriptValue)
  | panics (msg : String)
  deriving Repr

/-- `PythonScriptEngine::eval`: marshal each argument with `to_pyobject`,
call `vm.invoke(&script.invokable, args)` — modelled by the `invoke` oracle,
whose `.error` case is a raised Python exception — and `.unwrap()` the
result, so a raised exception panics the calling thread; on success the
returned object is marshalled back with `try_into`. -/
def eval (invoke : List PyObj → Except String PyObj)
    (args : List ScriptValue) : EvalOutcome :=
  let pyArgs := args.map toPyObject
  match invoke pyArgs with
  | .ok value => .returns (tryIntoScriptValue value)
  | .error exc => .panics exc

end Python

mutual

/-- The image of the foreign-to-host conversion inside the core value model:
values built from `Integer`, `Str` and `Dict` only (`Dict` values drawn
recursively from the same fragment). -/
def inFragment : ScriptValue → Bool
  | .Integer _ => true
  | .Str _ => true
  | .Dict entries => inFragmentEntries entries
  | .Bool _ => false
  | .List _ => false
  | .Scope _ _ _ => false

def inFragmentEntries : List (String × ScriptValue) → Bool
  | [] => true
  | (_, v) :: rest => inFragment v && inFragmentEntries rest

end

/-! ## Rust auto-trait model (for the `Sync`-ness of `ScriptError`)

`sylver-core/src/script/mod.rs` lines 33-35 contain
`unsafe impl Sync for ScriptError {}`. Whether that impl is needed is decided
by Rust's auto-trait derivation over the type's field structure, modelled
here: a composite is `Sync` exactly when all its fields are, `RefCell<T>` is
never `Sync`, and raw pointers are neither `Send` nor `Sync`. -/

/-- Shapes of Rust types as far as `Sync` auto-derivation observes them.
`recOcc` stands for a recursive occurrence of the type being analysed
(coinductively assumed, so it is a parameter below). -/
inductive RustTy where
  | prim
  | rawPtr
  | refCell (inner : RustTy)
  | structOf (fields : List RustTy)
  | enumOf (variants : List (List RustTy))
  | recOcc

mutual

/-- `Sync` auto-derivation, with `rec` the assumption made for recursive
occurrences of the analysed type. -/
def isSync (rec : Bool) : RustTy → Bool
  | .prim => true
  | .rawPtr => false
  | .refCell _ => false
  | .structOf fields => isSyncList rec fields
  | .enumOf variants => isSyncVariants rec variants
  | .recOcc => rec

/-- All fields of one struct or variant are `Sync`. -/
def isSyncList (rec : Bool) : List RustTy → Bool
  | [] => true
  | t :: rest => isSync rec t && isSyncList rec rest

/-- All variants of an enum have only `Sync` fields. -/
def isSyncVariants (rec : Bool) : List (List RustTy) → Bool
  | [] => true
  | var :: rest => isSyncList rec var && isSyncVariants rec rest

end

/-- The shape of `ScriptEvalCtx`: one raw-pointer field
(`ctx: *mut EvalCtx<...>`). -/
def scriptEvalCtxTy : RustTy := .structOf [.rawPtr]

/-- The shape of `ScriptValue` (core): `Bool | Integer | Str` over primitive
fields, `Dict` and `List` over recursive occurrences, and `Scope` holding a
`ScopeId` (primitive), an `SGraph` and a `RefCell<ScriptEvalCtx>`. `SGraph`
is a reference-counted graph handle; its exact `Sync`-ness is irrelevant
because the `RefCell` field alone already decides the result, so it enters
as a parameter. -/
def scriptValueTy (sgraph : RustTy) : RustTy :=
  .enumOf
    [[.prim], [.prim], [.prim], [.recOcc], [.recOcc],
     [.prim, sgraph, .refCell scriptEvalCtxTy]]

/-- The shape of `ScriptError`: `RuntimeError | UnsupportedType |
InvalidMessageType` over a `String`, `InvalidType` over a `String` and a
`ScriptValue`, `Compilation` over two `String`s, `InvalidAspectDeclaration`
with no field. -/
def scriptErrorTy (sgraph : RustTy) : RustTy :=
  .enumOf
    [[.prim], [.prim], [.prim, scriptValueTy sgraph], [.prim, .prim], [], [.prim]]

/-! # Theorems -/

/-! ## Helper lemmas on the derived equality and hash -/

mutual

theorem beqValue_refl : ∀ v : ScriptValue, beqValue v v = true
  | .Bool b => by simp [beqValue]
  | .Integer i => by simp [beqValue]
  | .Str s => by simp [beqValue]
  | .Dict d => by simp [beqValue]; exact beqDict_refl d
  | .List l => by simp [beqValue]; exact beqList_refl l
  | .Scope sid g c => by simp [beqValue]

theorem beqDict_refl : ∀ d : List (String × ScriptValue), beqDict d d = true
  | [] => by simp [beqDict]
  | (k, v) :: rest => by
    simp [beqDict]
    exact ⟨beqValue_refl v, beqDict_refl rest⟩

theorem beqList_refl : ∀ l : List ScriptValue, beqList l l = true
  | [] => by simp [beqList]
  | v :: rest => by
    simp [beqList]
    exact ⟨beqValue_refl v, beqList_refl rest⟩

end

mutual

theorem beqValue_sound : ∀ v w : ScriptValue,
    scopeFree v = true → scopeFree w = true → beqValue v w = true → v = w
  | v, w, hv, hw, h => by
    cases v <;> cases w <;>
      simp only [beqValue, beq_iff_eq, Bool.and_eq_true, scopeFree] at h hv hw ⊢
    all_goals try exact absurd h Bool.false_ne_true
    case Bool.Bool => rw [h]
    case Integer.Integer => rw [h]
    case Str.Str => rw [h]
    case Dict.Dict d e => exact congrArg ScriptValue.Dict (beqDict_sound d e hv hw h)
    case List.List a b => exact congrArg ScriptValue.List (beqList_sound a b hv hw h)
    case Scope.Scope => exact absurd hv Bool.false_ne_true

theorem beqDict_sound : ∀ d e : List (String × ScriptValue),
    scopeFreeDict d = true → scopeFreeDict e = true → beqDict d e = true → d = e
  | [], [], _, _, _ => rfl
  | (k, v) :: restL, (k2, v2) :: restR, hv, hw, h => by
    simp only [beqDict, Bool.and_eq_true, beq_iff_eq, scopeFreeDict] at h hv hw
    obtain ⟨⟨hk, hval⟩, hrest⟩ := h
    rw [hk, beqValue_sound v v2 hv.1 hw.1 hval, beqDict_sound restL restR hv.2 hw.2 hrest]
  | [], (_, _) :: _, _, _, h => by simp [beqDict] at h
  | (_, _) :: _, [], _, _, h => by simp [beqDict] at h

theorem beqList_sound : ∀ a b : List ScriptValue,
    scopeFreeList a = true → scopeFreeList b = true → beqList a b = true → a = b
  | [], [], _, _, _ => rfl
  | v :: restL, v2 :: restR, hv, hw, h => by
    simp only [beqList, Bool.and_eq_true, scopeFreeList] at h hv hw
    rw [beqValue_sound v v2 hv.1 hw.1 h.1, beqList_sound restL restR hv.2 hw.2 h.2]
  | [], _ :: _, _, _, h => by simp [beqList] at h
  | _ :: _, [], _, _, h => by simp [beqList] at h

end

mutual

theorem beqValue_hash : ∀ v w : ScriptValue,
    beqValue v w = true → hashValue v = hashValue w
  | v, w, h => by
    cases v <;> cases w <;>
      simp only [beqValue, beq_iff_eq, Bool.and_eq_true] at h
    all_goals try exact absurd h Bool.false_ne_true
    case Bool.Bool => rw [h]
    case Integer.Integer => rw [h]
    case Str.Str => rw [h]
    case Dict.Dict d e => simp only [hashValue]; rw [beqDict_hash d e h]
    case List.List a b => simp only [hashValue]; rw [beqList_hash a b h]
    case Scope.Scope => simp only [hashValue]; rw [h]

theorem beqDict_hash : ∀ d e : List (String × ScriptValue),
    beqDict d e = true → hashDict d = hashDict e
  | [], [], _ => rfl
  | (k, v) :: restL, (k2, v2) :: restR, h => by
    simp only [beqDict, Bool.and_eq_true, beq_iff_eq] at h
    obtain ⟨⟨hk, hval⟩, hrest⟩ := h
    simp only [hashDict]
    rw [hk, beqValue_hash v v2 hval, beqDict_hash restL restR hrest]
  | [], (_, _) :: _, h => by simp [beqDict] at h
  | (_, _) :: _, [], h => by simp [beqDict] at h

theorem beqList_hash : ∀ a b : List ScriptValue,
    beqList a b = true → hashList a = hashList b
  | [], [], _ => rfl
  | v :: restL, v2 :: restR, h => by
    simp only [beqList, Bool.and_eq_true] at h
    simp only [hashList]
    rw [beqValue_hash v v2 h.1, beqList_hash restL restR h.2]
  | [], _ :: _, h => by simp [beqList] at h
  | _ :: _, [], h => by simp [beqList] at h

end

/-! ## Narrowing lemmas -/

theorem tryIntoBool_ok_iff (v : ScriptValue) (b : Bool) :
    tryIntoBool v = .ok b ↔ v = .Bool b := by
  cases v <;> simp [tryIntoBool]

theorem tryIntoInteger_ok_iff (v : ScriptValue) (i : Int) :
    tryIntoInteger v = .ok i ↔ v = .Integer i := by
  cases v <;> simp [tryIntoInteger]

theorem tryIntoString_ok_iff (v : ScriptValue) (s : String) :
    tryIntoString v = .ok s ↔ v = .Str s := by
  cases v <;> simp [tryIntoString]

theorem tryIntoDict_ok_iff (v : ScriptValue) (d : List (String × ScriptValue)) :
    tryIntoDict v = .ok d ↔ v = .Dict d := by
  cases v <;> simp [tryIntoDict]

theorem tryIntoList_ok_iff (v : ScriptValue) (l : List ScriptValue) :
    tryIntoList v = .ok l ↔ v = .List l := by
  cases v <;> simp [tryIntoList]

theorem tryIntoBool_mismatch (v : ScriptValue) (h : ∀ b, v ≠ .Bool b) :
    tryIntoBool v = .error (.InvalidType "bool" v) := by
  cases v <;> first | exact absurd rfl (h _) | simp [tryIntoBool]

theorem tryIntoInteger_mismatch (v : ScriptValue) (h : ∀ i, v ≠ .Integer i) :
    tryIntoInteger v = .error (.InvalidType "integer" v) := by
  cases v <;> first | exact absurd rfl (h _) | simp [tryIntoInteger]

theorem tryIntoString_mismatch (v : ScriptValue) (h : ∀ s, v ≠ .Str s) :
    tryIntoString v = .error (.InvalidType "string" v) := by
  cases v <;> first | exact absurd rfl (h _) | simp [tryIntoString]

theorem tryIntoDict_mismatch (v : ScriptValue) (h : ∀ d, v ≠ .Dict d) :
    tryIntoDict v = .error (.InvalidType "dict" v) := by
  cases v <;> first | exact absurd rfl (h _) | simp [tryIntoDict]

theorem tryIntoList_mismatch (v : ScriptValue) (h : ∀ l, v ≠ .List l) :
    tryIntoList v = .error (.InvalidType "list" v) := by
  cases v <;> first | exact absurd rfl (h _) | simp [tryIntoList]

/-! ## Claim C5 -/

/-- C5: each of the five narrowing conversions on `ScriptValue` succeeds and
returns the payload exactly when the value is the matching variant; on every
other variant it fails with `InvalidType(expected_kind, v)`, carrying the
original mismatched value unchanged; no implicit coercion between variants
occurs. -/
theorem scriptValue_narrowing (v : ScriptValue) :
    (∀ b, tryIntoBool v = .ok b ↔ v = .Bool b) ∧
    (∀ i, tryIntoInteger v = .ok i ↔ v = .Integer i) ∧
    (∀ s, tryIntoString v = .ok s ↔ v = .Str s) ∧
    (∀ d, tryIntoDict v = .ok d ↔ v = .Dict d) ∧
    (∀ l, tryIntoList v = .ok l ↔ v = .List l) ∧
    ((∀ b, v ≠ .Bool b) → tryIntoBool v = .error (.InvalidType "bool" v)) ∧
    ((∀ i, v ≠ .Integer i) → tryIntoInteger v = .error (.InvalidType "integer" v)) ∧
    ((∀ s, v ≠ .Str s) → tryIntoString v = .error (.InvalidType "string" v)) ∧
    ((∀ d, v ≠ .Dict d) → tryIntoDict v = .error (.InvalidType "dict" v)) ∧
    ((∀ l, v ≠ .List l) → tryIntoList v = .error (.InvalidType "list" v)) :=
  ⟨tryIntoBool_ok_iff v, tryIntoInteger_ok_iff v, tryIntoString_ok_iff v,
   tryIntoDict_ok_iff v, tryIntoList_ok_iff v,
   tryIntoBool_mismatch v, tryIntoInteger_mismatch v, tryIntoString_mismatch v,
   tryIntoDict_mismatch v, tryIntoList_mismatch v⟩

/-- Witness for C5 at `v = Integer 3`: narrowing to integer succeeds with the
payload, narrowing to bool fails carrying the value unchanged. -/
theorem scriptValue_narrowing_witness :
    tryIntoInteger (.Integer 3) = .ok 3 ∧
    tryIntoBool (.Integer 3) = .error (.InvalidType "bool" (.Integer 3)) ∧
    tryIntoString (.Integer 3) = .error (.InvalidType "string" (.Integer 3)) ∧
    tryIntoDict (.Integer 3) = .error (.InvalidType "dict" (.Integer 3)) ∧
    tryIntoList (.Integer 3) = .error (.InvalidType "list" (.Integer 3)) := by
  obtain ⟨h1, h2, h3, h4, h5, h6, h7, h8, h9, h10⟩ := scriptValue_narrowing (.Integer 3)
  exact ⟨(h2 3).mpr rfl,
         h6 (fun b hb => ScriptValue.noConfusion hb),
         h8 (fun s hs => ScriptValue.noConfusion hs),
         h9 (fun d hd => ScriptValue.noConfusion hd),
         h10 (fun l hl => ScriptValue.noConfusion hl)⟩

/-! ## Claim C8 -/

/-- C8: two `Scope` values carrying the same scope identifier compare equal
and hash equal regardless of the graph and context references they carry,
while on `Scope`-free values the derived equality coincides with structural
equality, and the derived hash is constant on derived-equal values. -/
theorem scope_identity_eq_hash :
    (∀ (sid : ScopeId) (g g2 : SGraph) (c c2 : ScriptEvalCtx),
      beqValue (.Scope sid g c) (.Scope sid g2 c2) = true ∧
      hashValue (.Scope sid g c) = hashValue (.Scope sid g2 c2)) ∧
    (∀ v w, scopeFree v = true → scopeFree w = true →
      (beqValue v w = true ↔ v = w)) ∧
    (∀ v w, beqValue v w = true → hashValue v = hashValue w) := by
  refine ⟨fun sid g g2 c c2 => ⟨by simp [beqValue], by simp [hashValue]⟩,
          fun v w hv hw => ⟨beqValue_sound v w hv hw, ?_⟩,
          beqValue_hash⟩
  rintro rfl
  exact beqValue_refl v

/-- Witness for C8: two `Scope` values with identifier 1 but different graph
and context references compare and hash equal; on a concrete `Scope`-free
value the derived equality agrees with structural equality. -/
theorem scope_identity_eq_hash_witness :
    beqValue (.Scope ⟨1⟩ ⟨2⟩ ⟨3⟩) (.Scope ⟨1⟩ ⟨4⟩ ⟨5⟩) = true ∧
    hashValue (.Scope ⟨1⟩ ⟨2⟩ ⟨3⟩) = hashValue (.Scope ⟨1⟩ ⟨4⟩ ⟨5⟩) ∧
    (ScriptValue.List [.Integer 7] = ScriptValue.List [.Integer 7]) ∧
    hashValue (.Bool true) = hashValue (.Bool true) := by
  obtain ⟨hscope, hstruct, hcoh⟩ := scope_identity_eq_hash
  refine ⟨(hscope ⟨1⟩ ⟨2⟩ ⟨3⟩ ⟨4⟩ ⟨5⟩).1, (hscope ⟨1⟩ ⟨2⟩ ⟨3⟩ ⟨4⟩ ⟨5⟩).2, ?_, ?_⟩
  · exact (hstruct (.List [.Integer 7]) (.List [.Integer 7])
      (by simp [scopeFree, scopeFreeList])
      (by simp [scopeFree, scopeFreeList])).mp
      (by simp [beqValue, beqList])
  · exact hcoh (.Bool true) (.Bool true) (by simp [beqValue])

/-! ## Claims about the compiler pipeline (C2, C3, C7) -/

/-- The body-level statement behind C3: whenever no statement of the body is
a `FunctionDef` named `fn_name`, the presence check in `append_func_ref`
fails. -/
theorem append_func_ref_any_false (fn_name : String)
    (body : List (Python.Located Python.StmtKind))
    (h : ∀ stmt ∈ body, ∀ rest, stmt.node ≠ .FunctionDef fn_name rest) :
    (body.any fun stmt =>
      match stmt.node with
      | .FunctionDef name _ => name == fn_name
      | _ => false) = false := by
  rw [List.any_eq_false]
  intro stmt hstmt
  cases hnode : stmt.node with
  | FunctionDef name rest =>
    by_cases hname : name = fn_name
    · subst hname
      exact absurd hnode (h stmt hstmt rest)
    · simp [hname]
  | Expr e => simp
  | OtherStmt t => simp

/-- `append_func_ref` on a body lacking the target function. -/
theorem append_func_ref_missing (path fn_name : String)
    (body : List (Python.Located Python.StmtKind))
    (h : ∀ stmt ∈ body, ∀ rest, stmt.node ≠ .FunctionDef fn_name rest) :
    Python.append_func_ref path fn_name (.Interactive body)
      = .error (.Compilation path ("Function " ++ fn_name ++ " not found")) := by
  simp only [Python.append_func_ref]
  rw [append_func_ref_any_false fn_name body h]
  simp

/-- C3: for every parse result whose `Interactive` body declares no top-level
function named `fn_name`, `compile_function` returns
`Compilation(path, "Function <fn_name> not found")`, for all codegen and
loading oracles. -/
theorem compile_function_missing_function (CodeObj Invokable : Type)
    (compile_ast : Python.Mod → Except ScriptError CodeObj)
    (run_code_obj : CodeObj → Except ScriptError Invokable)
    (path fn_name : String) (body : List (Python.Located Python.StmtKind))
    (h : ∀ stmt ∈ body, ∀ rest, stmt.node ≠ .FunctionDef fn_name rest) :
    Python.compile_function compile_ast run_code_obj
        (.ok (.Interactive body)) path fn_name
      = .error (.Compilation path ("Function " ++ fn_name ++ " not found")) := by
  show (do
      let ast2 ← Python.append_func_ref path fn_name (.Interactive body)
      let code ← compile_ast ast2
      run_code_obj code)
    = Except.error (.Compilation path ("Function " ++ fn_name ++ " not found"))
  rw [append_func_ref_missing path fn_name body h]
  rfl

/-- Witness for C3: a one-statement body declaring `g` but not `f`. -/
theorem compile_function_missing_function_witness :
    Python.compile_function (fun _ => .ok ()) (fun _ => .ok ())
        (.ok (.Interactive [⟨⟨1, 0⟩, some ⟨1, 10⟩, .FunctionDef "g" 0⟩]))
        "test.py" "f"
      = .error (.Compilation "test.py" "Function f not found") := by
  have h := compile_function_missing_function Unit Unit
    (fun _ => .ok ()) (fun _ => .ok ()) "test.py" "f"
    [⟨⟨1, 0⟩, some ⟨1, 10⟩, .FunctionDef "g" 0⟩]
    (by
      intro stmt hstmt rest heq
      simp only [List.mem_singleton] at hstmt
      subst hstmt
      simp at heq)
  simpa using h

/-- C2 (code-bug evidence): at an empty parsed body, `compile_function`
returns the "Function <name> not found" compilation error — the
function-presence check runs before the emptiness check, so the
"Empty script" branch never fires. -/
theorem compile_function_empty_body (CodeObj Invokable : Type)
    (compile_ast : Python.Mod → Except ScriptError CodeObj)
    (run_code_obj : CodeObj → Except ScriptError Invokable)
    (path fn_name : String) :
    Python.compile_function compile_ast run_code_obj
        (.ok (.Interactive [])) path fn_name
      = .error (.Compilation path ("Function " ++ fn_name ++ " not found")) ∧
    Python.compile_function compile_ast run_code_obj
        (.ok (.Interactive [])) path fn_name
      ≠ .error (.Compilation path "Empty script") := by
  have heq : Python.compile_function compile_ast run_code_obj
      (.ok (.Interactive [])) path fn_name
      = .error (.Compilation path ("Function " ++ fn_name ++ " not found")) := by
    have hstep := append_func_ref_missing path fn_name []
      (fun stmt hstmt => absurd hstmt (List.not_mem_nil stmt))
    show (do
        let ast2 ← Python.append_func_ref path fn_name (.Interactive [])
        let code ← compile_ast ast2
        run_code_obj code)
      = Except.error (.Compilation path ("Function " ++ fn_name ++ " not found"))
    rw [hstep]
    rfl
  refine ⟨heq, ?_⟩
  rw [heq]
  intro hcontra
  simp only [Except.error.injEq, ScriptError.Compilation.injEq] at hcontra
  have hlen := congrArg String.length hcontra.2
  rw [String.length_append, String.length_append] at hlen
  rw [show ("Function " : String).length = 9 from rfl,
      show (" not found" : String).length = 10 from rfl,
      show ("Empty script" : String).length = 12 from rfl] at hlen
  omega

/-- Witness for C2's evidence theorem (its binders are types, oracles and
names, not propositions; a concrete instantiation is still given). -/
theorem compile_function_empty_body_witness :
    Python.compile_function (fun _ => .ok ()) (fun _ => .ok ())
        (.ok (.Interactive [])) "test.py" "f"
      = .error (.Compilation "test.py" "Function f not found") := by
  have h := (compile_function_empty_body Unit Unit
    (fun _ => .ok ()) (fun _ => .ok ()) "test.py" "f").1
  simpa using h

/-- C7: on a body that declares the target function and has a last statement
with a known end location `p`, `append_func_ref` returns the body with every
original statement unchanged and in order, followed by exactly one appended
statement: an expression statement consisting solely of a `Load` name
reference to `fn_name`, positioned at `p`. -/
theorem append_func_ref_appends (path fn_name : String)
    (body : List (Python.Located Python.StmtKind))
    (last : Python.Located Python.StmtKind) (p : Python.Location)
    (hfn : ∃ stmt ∈ body, ∃ rest, stmt.node = .FunctionDef fn_name rest)
    (hlast : body.getLast? = some last)
    (hend : last.end_location = some p) :
    Python.append_func_ref path fn_name (.Interactive body) =
      .ok (.Interactive (body ++ [Python.build_name_stmt p fn_name])) ∧
    Python.build_name_stmt p fn_name =
      ⟨p, some p, .Expr ⟨p, some p, .Name fn_name .Load⟩⟩ := by
  have hany : (body.any fun stmt =>
      match stmt.node with
      | .FunctionDef name _ => name == fn_name
      | _ => false) = true := by
    rw [List.any_eq_true]
    obtain ⟨stmt, hstmt, rest, hnode⟩ := hfn
    exact ⟨stmt, hstmt, by rw [hnode]; simp⟩
  refine ⟨?_, rfl⟩
  simp [Python.append_func_ref, hany, hlast, hend]

/-- Witness for C7: a one-statement body defining `f`, ending at row 3,
column 5. -/
theorem append_func_ref_appends_witness :
    Python.append_func_ref "test.py" "f"
        (.Interactive [⟨⟨1, 0⟩, some ⟨3, 5⟩, .FunctionDef "f" 0⟩]) =
      .ok (.Interactive
        [⟨⟨1, 0⟩, some ⟨3, 5⟩, .FunctionDef "f" 0⟩,
         Python.build_name_stmt ⟨3, 5⟩ "f"]) := by
  have h := (append_func_ref_appends "test.py" "f"
    [⟨⟨1, 0⟩, some ⟨3, 5⟩, .FunctionDef "f" 0⟩]
    ⟨⟨1, 0⟩, some ⟨3, 5⟩, .FunctionDef "f" 0⟩ ⟨3, 5⟩
    ⟨⟨⟨1, 0⟩, some ⟨3, 5⟩, .FunctionDef "f" 0⟩, by simp, 0, rfl⟩
    (by simp) rfl).1
  simpa using h

/-! ## Claim C1 (code-bug evidence) -/

/-- C1 (code-bug evidence): when the invoked Python function raises,
`PythonScriptEngine::eval` panics the calling thread (the `.unwrap()` on
`vm.invoke`'s result) instead of returning `Err(RuntimeError(detail))`. -/
theorem eval_panics_on_python_exception :
    Python.eval (fun _ => .error "ValueError: boom") [] =
      .panics "ValueError: boom" ∧
    ∀ detail, Python.eval (fun _ => .error "ValueError: boom") [] ≠
      .returns (.error (.RuntimeError detail)) := by
  constructor
  · rfl
  · intro detail hcontra
    simp [Python.eval] at hcontra

/-- Witness for the C1 evidence theorem, its universal detail instantiated. -/
theorem eval_panics_on_python_exception_witness :
    Python.eval (fun _ => .error "ValueError: boom") [] =
      .panics "ValueError: boom" ∧
    Python.eval (fun _ => .error "ValueError: boom") [] ≠
      .returns (.error (.RuntimeError "ValueError: boom")) :=
  ⟨eval_panics_on_python_exception.1,
   eval_panics_on_python_exception.2 "ValueError: boom"⟩

/-! ## Marshalling round-trip (C4) -/

theorem keysSorted_cons : ∀ (k : String) (v : Python.ScriptValue) rest,
    Python.keysSorted ((k, v) :: rest) = true →
    Python.keysSorted rest = true ∧ ∀ e ∈ rest, k < e.1
  | _, _, [], _ => ⟨by simp [Python.keysSorted], by simp⟩
  | k, v, (k2, v2) :: rest2, h => by
    simp only [Python.keysSorted, Bool.and_eq_true, decide_eq_true_eq] at h
    obtain ⟨hk, hrest⟩ := h
    have ih := keysSorted_cons k2 v2 rest2 hrest
    refine ⟨hrest, ?_⟩
    intro e he
    rcases List.mem_cons.mp he with rfl | he2
    · exact hk
    · exact lt_trans hk (ih.2 e he2)

theorem btreeInsert_append : ∀ (k : String) (v : Python.ScriptValue) acc,
    (∀ e ∈ acc, e.1 < k) →
    Python.btreeInsert k v acc = acc ++ [(k, v)]
  | _, _, [], _ => by simp [Python.btreeInsert]
  | k, v, (k2, v2) :: rest, h => by
    have hk2 : k2 < k := h (k2, v2) (List.mem_cons_self _ _)
    simp only [Python.btreeInsert]
    rw [if_neg (not_lt_of_gt hk2), if_neg (ne_of_gt hk2),
        btreeInsert_append k v rest (fun e he => h e (List.mem_cons_of_mem _ he))]
    simp

mutual

theorem marshalling_roundtrip_aux : ∀ v : Python.ScriptValue,
    Python.wf v = true →
    Python.tryIntoScriptValue (Python.toPyObject v) = .ok v
  | .Integer i, h => by
    simp only [Python.wf, Bool.and_eq_true, decide_eq_true_eq] at h
    simp [Python.toPyObject, Python.tryIntoScriptValue, h.1, h.2]
  | .Str s, _ => by simp [Python.toPyObject, Python.tryIntoScriptValue]
  | .Dict entries, h => by
    simp only [Python.wf, Bool.and_eq_true] at h
    simp only [Python.toPyObject, Python.tryIntoScriptValue]
    rw [marshalling_roundtrip_entries entries [] h.2 h.1 (by simp)]
    simp

theorem marshalling_roundtrip_entries : ∀ entries acc,
    Python.wfEntries entries = true → Python.keysSorted entries = true →
    (∀ e ∈ acc, ∀ e2 ∈ entries, e.1 < e2.1) →
    Python.pydictToValue (Python.dictEntriesToPy entries) acc = .ok (acc ++ entries)
  | [], acc, _, _, _ => by simp [Python.dictEntriesToPy, Python.pydictToValue]
  | (k, v) :: rest, acc, hwf, hsorted, hacc => by
    simp only [Python.wfEntries, Bool.and_eq_true] at hwf
    obtain ⟨hsrest, hklt⟩ := keysSorted_cons k v rest hsorted
    have hinsert : Python.btreeInsert k v acc = acc ++ [(k, v)] :=
      btreeInsert_append k v acc
        (fun e he => hacc e he (k, v) (List.mem_cons_self _ _))
    have hacc2 : ∀ e ∈ acc ++ [(k, v)], ∀ e2 ∈ rest, e.1 < e2.1 := by
      intro e he e2 he2
      rcases List.mem_append.mp he with h1 | h1
      · exact hacc e h1 e2 (List.mem_cons_of_mem _ he2)
      · rw [List.mem_singleton.mp h1]
        exact hklt e2 he2
    simp only [Python.dictEntriesToPy, Python.pydictToValue]
    rw [marshalling_roundtrip_aux v hwf.1]
    show Python.pydictToValue (Python.dictEntriesToPy rest)
        (Python.btreeInsert k v acc) = _
    rw [hinsert,
        marshalling_roundtrip_entries rest (acc ++ [(k, v)]) hwf.2 hsrest hacc2]
    simp

end

/-! ## Claim C4 -/

/-- C4: for every `ScriptValue` of the `sylver-script` crate (the
`{Integer, Str, Dict}` fragment, nested arbitrarily) satisfying the
representation invariant (`i64` payloads, `BTreeMap`-shaped dicts),
marshalling host-to-foreign (`ToPyObject`) and then foreign-to-host
(`TryInto<ScriptValue>`) returns the original value. -/
theorem marshalling_roundtrip (v : Python.ScriptValue)
    (h : Python.wf v = true) :
    Python.tryIntoScriptValue (Python.toPyObject v) = .ok v :=
  marshalling_roundtrip_aux v h

/-- Witness for C4 at the nested value
`{"a": 1, "b": "hello", "c": {"d": 2}}`. -/
theorem marshalling_roundtrip_witness :
    Python.tryIntoScriptValue (Python.toPyObject
      (.Dict [("a", .Integer 1), ("b", .Str "hello"),
              ("c", .Dict [("d", .Integer 2)])])) =
    .ok (.Dict [("a", .Integer 1), ("b", .Str "hello"),
                ("c", .Dict [("d", .Integer 2)])]) := by
  have hab : ("a" : String) < "b" := by rw [String.lt_iff_toList_lt]; decide
  have hbc : ("b" : String) < "c" := by rw [String.lt_iff_toList_lt]; decide
  refine marshalling_roundtrip _ ?_
  simp [Python.wf, Python.wfEntries, Python.keysSorted, hab, hbc,
        Python.i64Min, Python.i64Max]

/-! ## Foreign-to-host conversion, entry by entry (C6) -/

theorem pydictToValue_ok_entries : ∀ entries acc,
    (∀ e ∈ entries, Python.entryOk e) →
    ∃ map, Python.pydictToValue entries acc = .ok map
  | [], acc, _ => ⟨acc, by simp [Python.pydictToValue]⟩
  | (keyValue, value) :: rest, acc, h => by
    obtain ⟨s, converted, hkey, hval⟩ := h _ (List.mem_cons_self _ _)
    simp only at hkey hval
    obtain ⟨map, hmap⟩ := pydictToValue_ok_entries rest
      (Python.btreeInsert s converted acc)
      (fun e he => h e (List.mem_cons_of_mem _ he))
    refine ⟨map, ?_⟩
    rw [hkey]
    simp only [Python.pydictToValue]
    rw [hval]
    exact hmap

theorem pydictToValue_append : ∀ pre l acc,
    (∀ e ∈ pre, Python.entryOk e) →
    ∃ acc2, Python.pydictToValue (pre ++ l) acc = Python.pydictToValue l acc2
  | [], _, acc, _ => ⟨acc, by simp⟩
  | (keyValue, value) :: pre2, l, acc, h => by
    obtain ⟨s, converted, hkey, hval⟩ := h _ (List.mem_cons_self _ _)
    simp only at hkey hval
    obtain ⟨acc2, hacc2⟩ := pydictToValue_append pre2 l
      (Python.btreeInsert s converted acc)
      (fun e he => h e (List.mem_cons_of_mem _ he))
    refine ⟨acc2, ?_⟩
    rw [List.cons_append, hkey]
    simp only [Python.pydictToValue]
    rw [hval]
    exact hacc2

theorem pydictToValue_bad_key (keyValue value : Python.PyObj)
    (rest : List (Python.PyObj × Python.PyObj))
    (acc : List (String × Python.ScriptValue))
    (h : ∀ s, keyValue ≠ .str s) :
    Python.pydictToValue ((keyValue, value) :: rest) acc =
      .error (.UnsupportedType ("DictKey(" ++ keyValue.className ++ ")")) := by
  cases keyValue
  case str s => exact absurd rfl (h s)
  all_goals simp [Python.pydictToValue, Python.PyObj.className]

/-! ## Claim C6 (corrected) -/

/-- C6 counterexample: the dict `{"a": 2^63, 5: 1}` contains the non-string
key `5`, yet the conversion fails with `UnsupportedType("big_int")` — the
error from the earlier entry's oversized value — and not with an error
naming the key's type, refuting the claim that a non-string key anywhere
makes the error name that key's type. -/
theorem foreign_to_host_key_error_cex :
    Python.tryIntoScriptValue
        (.dict [(.str "a", .int (2 ^ 63)), (.int 5, .int 1)]) =
      .error (.UnsupportedType "big_int") ∧
    ¬ (Python.tryIntoScriptValue
        (.dict [(.str "a", .int (2 ^ 63)), (.int 5, .int 1)]) =
      .error (.UnsupportedType
        ("DictKey(" ++ (Python.PyObj.int 5).className ++ ")"))) := by
  have hbig : ¬ (Python.i64Min ≤ (2 : Int) ^ 63 ∧ (2 : Int) ^ 63 ≤ Python.i64Max) := by
    rw [Python.i64Min, Python.i64Max]
    norm_num
  have heval : Python.tryIntoScriptValue
      (.dict [(.str "a", .int (2 ^ 63)), (.int 5, .int 1)]) =
      .error (.UnsupportedType "big_int") := by
    simp only [Python.tryIntoScriptValue, Python.pydictToValue]
    rw [if_neg hbig]
  refine ⟨heval, ?_⟩
  rw [heval]
  intro hcontra
  simp only [Except.error.injEq, ScriptError.UnsupportedType.injEq,
             Python.PyObj.className] at hcontra
  have hlen := congrArg String.length hcontra
  rw [String.length_append, String.length_append] at hlen
  rw [show ("big_int" : String).length = 7 from rfl,
      show ("DictKey(" : String).length = 8 from rfl,
      show ("int" : String).length = 3 from rfl,
      show (")" : String).length = 1 from rfl] at hlen
  omega

/-- C6 as amended: foreign-to-host conversion maps a native integer to
`Integer`, failing with `UnsupportedType("big_int")` exactly when it does
not fit `i64`; a native string to `Str`; any other native class to
`UnsupportedType` naming that class; and a native mapping to `Dict` when
every entry converts, while a non-string key makes the conversion fail with
`UnsupportedType("DictKey(<class>)")` naming that key's runtime type
provided every entry before it converts successfully (entries are examined
in order, each key checked before its value). -/
theorem foreign_to_host_exact :
    (∀ n : Int, Python.tryIntoScriptValue (.int n) =
      if Python.i64Min ≤ n ∧ n ≤ Python.i64Max then .ok (.Integer n)
      else .error (.UnsupportedType "big_int")) ∧
    (∀ s, Python.tryIntoScriptValue (.str s) = .ok (.Str s)) ∧
    (∀ cls, Python.tryIntoScriptValue (.other cls) =
      .error (.UnsupportedType ("Unsupported type: " ++ cls))) ∧
    (∀ entries, (∀ e ∈ entries, Python.entryOk e) →
      ∃ map, Python.pydictToValue entries [] = .ok map ∧
        Python.tryIntoScriptValue (.dict entries) = .ok (.Dict map)) ∧
    (∀ pre keyValue value rest, (∀ e ∈ pre, Python.entryOk e) →
      (∀ s, keyValue ≠ Python.PyObj.str s) →
      Python.tryIntoScriptValue (.dict (pre ++ (keyValue, value) :: rest)) =
        .error (.UnsupportedType ("DictKey(" ++ keyValue.className ++ ")"))) := by
  refine ⟨fun n => by simp [Python.tryIntoScriptValue],
          fun s => by simp [Python.tryIntoScriptValue],
          fun cls => by simp [Python.tryIntoScriptValue],
          fun entries h => ?_, fun pre keyValue value rest hpre hkey => ?_⟩
  · obtain ⟨map, hmap⟩ := pydictToValue_ok_entries entries [] h
    refine ⟨map, hmap, ?_⟩
    simp only [Python.tryIntoScriptValue]
    rw [hmap]
  · obtain ⟨acc2, hacc2⟩ := pydictToValue_append pre ((keyValue, value) :: rest) [] hpre
    simp only [Python.tryIntoScriptValue]
    rw [hacc2, pydictToValue_bad_key keyValue value rest acc2 hkey]

/-- Witness for C6's amended statement: an in-range integer, a string, an
unsupported class, a well-formed one-entry dict, and a dict whose first
entry converts but whose second key is the integer `5`. -/
theorem foreign_to_host_exact_witness :
    Python.tryIntoScriptValue (.int 3) = .ok (.Integer 3) ∧
    Python.tryIntoScriptValue (.str "hello") = .ok (.Str "hello") ∧
    Python.tryIntoScriptValue (.other "set") =
      .error (.UnsupportedType "Unsupported type: set") ∧
    Python.tryIntoScriptValue (.dict [(.str "a", .int 1)]) =
      .ok (.Dict [("a", .Integer 1)]) ∧
    Python.tryIntoScriptValue
        (.dict [(.str "a", .int 1), (.int 5, .int 1)]) =
      .error (.UnsupportedType "DictKey(int)") := by
  obtain ⟨hint, hstr, hcls, hdict, hbad⟩ := foreign_to_host_exact
  have h3 : Python.tryIntoScriptValue (.int 3) = .ok (.Integer 3) := by
    rw [hint 3, if_pos]
    rw [Python.i64Min, Python.i64Max]
    norm_num
  have h1 : Python.tryIntoScriptValue (.int 1) = .ok (.Integer 1) := by
    rw [hint 1, if_pos]
    rw [Python.i64Min, Python.i64Max]
    norm_num
  have hok : ∀ e ∈ [((Python.PyObj.str "a" : Python.PyObj), Python.PyObj.int 1)],
      Python.entryOk e := by
    intro e he
    rw [List.mem_singleton.mp he]
    exact ⟨"a", .Integer 1, rfl, h1⟩
  refine ⟨h3, hstr "hello", hcls "set", ?_, ?_⟩
  · obtain ⟨map, hmap, hres⟩ := hdict _ hok
    have hmap2 : map = [("a", Python.ScriptValue.Integer 1)] := by
      have : Python.pydictToValue [(.str "a", .int 1)] [] =
          .ok [("a", Python.ScriptValue.Integer 1)] := by
        simp only [Python.pydictToValue]
        rw [h1]
        simp [Python.btreeInsert]
      rw [this] at hmap
      simpa using hmap.symm
    rw [hres, hmap2]
  · have := hbad [((Python.PyObj.str "a" : Python.PyObj), Python.PyObj.int 1)]
      (Python.PyObj.int 5) (Python.PyObj.int 1) [] hok
      (fun s hs => Python.PyObj.noConfusion hs)
    simpa [Python.PyObj.className] using this

/-! ## Claim C10 -/

mutual

theorem toCore_inFragment_aux : ∀ v : Python.ScriptValue,
    inFragment (Python.toCore v) = true
  | .Integer i => by simp [Python.toCore, inFragment]
  | .Str s => by simp [Python.toCore, inFragment]
  | .Dict entries => by
    simp only [Python.toCore, inFragment]
    exact toCore_inFragment_entries entries

theorem toCore_inFragment_entries : ∀ entries,
    inFragmentEntries (Python.toCoreEntries entries) = true
  | [] => by simp [Python.toCoreEntries, inFragmentEntries]
  | (k, v) :: rest => by
    simp only [Python.toCoreEntries, inFragmentEntries, Bool.and_eq_true]
    exact ⟨toCore_inFragment_aux v, toCore_inFragment_entries rest⟩

end

/-- C10: every successful foreign-to-host conversion yields a value built
only from the `Integer`, `Str` and `Dict` constructors (`Dict` values drawn
recursively from the same fragment) — seen inside the core six-variant value
model, the image never contains `Bool`, `List` or `Scope`. -/
theorem foreign_to_host_in_fragment (p : Python.PyObj)
    (v : Python.ScriptValue)
    (_h : Python.tryIntoScriptValue p = .ok v) :
    inFragment (Python.toCore v) = true :=
  toCore_inFragment_aux v

/-- Witness for C10 at the native integer `3`. -/
theorem foreign_to_host_in_fragment_witness :
    Python.tryIntoScriptValue (.int 3) = .ok (.Integer 3) ∧
    inFragment (Python.toCore (.Integer 3)) = true := by
  have hp : Python.tryIntoScriptValue (.int 3) = .ok (.Integer 3) := by
    simp only [Python.tryIntoScriptValue]
    rw [if_pos]
    rw [Python.i64Min, Python.i64Max]
    norm_num
  exact ⟨hp, foreign_to_host_in_fragment _ _ hp⟩

/-! ## Claim C9 (corrected) -/

theorem isSync_scriptValueTy (rec : Bool) (sgraph : RustTy) :
    isSync rec (scriptValueTy sgraph) = false := by
  simp [scriptValueTy, scriptEvalCtxTy, isSync, isSyncVariants, isSyncList]

theorem isSync_scriptErrorTy (rec : Bool) (sgraph : RustTy) :
    isSync rec (scriptErrorTy sgraph) = false := by
  simp [scriptErrorTy, scriptValueTy, scriptEvalCtxTy, isSync,
        isSyncVariants, isSyncList]

/-- C9 counterexample: even under the most generous assumptions (recursive
occurrences assumed `Sync`, the scope-graph handle taken to be a `Sync`
primitive), `Sync` auto-derivation over `ScriptError`'s field structure
fails — through `ScriptValue::Scope` it contains a `RefCell` over a
raw-pointer context handle — so the error type is not shareable "by
construction" and the `unsafe impl Sync for ScriptError` in the source is a
manual override. -/
theorem scriptError_not_auto_sync :
    ¬ (isSync true (scriptErrorTy .prim) = true) := by
  rw [isSync_scriptErrorTy]
  simp

/-- C9 as amended: `ScriptError` is not thread-shareable by construction:
for every assumption about recursive occurrences and about the scope-graph
handle, `Sync` auto-derivation over its field structure yields `false`,
because the `Scope` variant of the contained `ScriptValue` holds a
`RefCell` over a raw-pointer evaluation-context handle; the thread-sharing
property therefore requires the manual `unsafe impl Sync` present in the
source. -/
theorem scriptError_needs_manual_sync (rec : Bool) (sgraph : RustTy) :
    isSync rec (scriptErrorTy sgraph) = false ∧
    isSync rec (.refCell scriptEvalCtxTy) = false ∧
    isSync rec .rawPtr = false :=
  ⟨isSync_scriptErrorTy rec sgraph, by simp [isSync], by simp [isSync]⟩

/-- Witness for the amended C9 statement, instantiated at the generous
assumptions of the counterexample. -/
theorem scriptError_needs_manual_sync_witness :
    isSync true (scriptErrorTy .prim) = false ∧
    isSync true (.refCell scriptEvalCtxTy) = false ∧
    isSync true .rawPtr = false :=
  scriptError_needs_manual_sync true .prim

end Sylver
